import Mathlib

/-!
# `pkg/printers/name_flags.go`

A shallow embedding of `NamePrintFlags`, its method `ToPrinter`, its method
`AddFlags` and the constructor `NewNamePrintFlags`.

Go pointers are addresses into an explicit heap that is passed in and handed
back by every operation; an address that holds no object stands for a nil
pointer, and reading through it is the panic `none`.  A Go string is a Lean
`String`, that is, a sequence of Unicode code points (well-formed UTF-8).  The
two library functions the file calls on strings (`strings.ToLower`, and
`unicode.ToLower` under it) are written out after the Go standard library,
with the Unicode case table for runes above `MaxASCII` taken as a parameter.
-/

namespace unicode

/-- The ASCII arm of `unicode.ToLower`:
`if 'A' <= r && r <= 'Z' { r += 'a' - 'A' }`. -/
def lowerASCII (r : Char) : Char :=
  if 65 ≤ r.toNat ∧ r.toNat ≤ 90 then Char.ofNat (r.toNat + 32) else r

/-- Go `unicode.ToLower`: runes up to `MaxASCII` are handled inline, every other
rune is looked up in the case table `caseTable`. -/
def ToLower (caseTable : Char → Char) (r : Char) : Char :=
  if r.toNat ≤ 0x7F then lowerASCII r else caseTable r

end unicode

namespace strings

/-- First loop of `strings.ToLower`: no byte is `>= utf8.RuneSelf`. -/
def isASCII (s : String) : Bool :=
  s.data.all (fun c => decide (c.toNat < 0x80))

/-- First loop of `strings.ToLower`: some byte lies in `'A'..'Z'`. -/
def hasUpper (s : String) : Bool :=
  s.data.any (fun c => decide (65 ≤ c.toNat ∧ c.toNat ≤ 90))

/-- Go `strings.ToLower`: an ASCII string without upper-case letters is returned
as it is, an ASCII string is lowered byte by byte, any other string goes
through `Map(unicode.ToLower, s)`. -/
def ToLower (caseTable : Char → Char) (s : String) : String :=
  if isASCII s then
    if !hasUpper s then s
    else String.mk (s.data.map unicode.lowerASCII)
  else String.mk (s.data.map (unicode.ToLower caseTable))

/-- Go `strings.HasSuffix`: `s` ends with `suffix`. -/
def HasSuffix (s suffix : String) : Prop :=
  suffix.data <:+ s.data

end strings

namespace printers

/-- An address on the heap. -/
abbrev Ptr := Nat

/-- The struct `NamePrintFlags`. -/
structure NamePrintFlags where
  DryRun : Bool
  Operation : String
deriving DecidableEq

/-- The two decoders `ToPrinter` puts into the printer:
`scheme.Codecs.UniversalDecoder()` and `unstructured.UnstructuredJSONScheme`. -/
inductive Decoder where
  | UniversalDecoder
  | UnstructuredJSONScheme
deriving DecidableEq

/-- The typer `ToPrinter` puts into the printer: `scheme.Scheme`. -/
inductive ObjectTyper where
  | Scheme
deriving DecidableEq

/-- The struct `NamePrinter`, with the four fields `ToPrinter` sets. -/
structure NamePrinter where
  Operation : String
  Typer : ObjectTyper
  Decoders : List Decoder
  ShortOutput : Bool
deriving DecidableEq

/-- The struct `NoCompatiblePrinterError`.  `ToPrinter` builds it with the
unkeyed literal `NoCompatiblePrinterError{f}`, so it has exactly one field,
and that field receives the pointer `f`. -/
structure NoCompatiblePrinterError where
  Options : Ptr
deriving DecidableEq

/-- The heap: the `NamePrintFlags` objects and the `NamePrinter` objects, each
addressed by its position. -/
structure Heap where
  flags : List NamePrintFlags
  printers : List NamePrinter
deriving DecidableEq

/-- Allocation `&NamePrinter{...}`: the new object and its address. -/
def Heap.newPrinter (h : Heap) (p : NamePrinter) : Heap × Ptr :=
  ({ h with printers := h.printers ++ [p] }, h.printers.length)

/-- Allocation `&NamePrintFlags{...}`: the new object and its address. -/
def Heap.newFlags (h : Heap) (f : NamePrintFlags) : Heap × Ptr :=
  ({ h with flags := h.flags ++ [f] }, h.flags.length)

/-- A store through a `*NamePrinter`; `none` is the nil-pointer panic. -/
def Heap.storePrinter (h : Heap) (p : Ptr) (g : NamePrinter → NamePrinter) :
    Option Heap :=
  match h.printers[p]? with
  | none => none
  | some v => some { h with printers := h.printers.set p (g v) }

/-- What `ToPrinter` returns: the `ResourcePrinter` interface value (nil, or a
pointer to a `NamePrinter`) and the `error` interface value (nil, or a
`NoCompatiblePrinterError`). -/
abbrev PrinterResult := Option Ptr × Option NoCompatiblePrinterError

/-- The method `(f *NamePrintFlags) ToPrinter(outputFormat string)`, run on heap
`h`.  `none` is a nil-pointer panic; otherwise the heap after the call and
the two returned values. -/
def ToPrinter (caseTable : Char → Char) (h : Heap) (f : Ptr)
    (outputFormat : String) : Option (Heap × PrinterResult) :=
  let decoders := [Decoder.UniversalDecoder, Decoder.UnstructuredJSONScheme]
  match h.flags[f]? with
  | none => none
  | some fv =>
    let (h1, namePrinter) := h.newPrinter
      { Operation := fv.Operation, Typer := ObjectTyper.Scheme,
        Decoders := decoders, ShortOutput := false }
    match h1.flags[f]? with
    | none => none
    | some fv1 =>
      let h2opt :=
        if fv1.DryRun then
          h1.storePrinter namePrinter
            (fun p => { p with Operation := p.Operation ++ " (dry run)" })
        else some h1
      match h2opt with
      | none => none
      | some h2 =>
        let outputFormat := strings.ToLower caseTable outputFormat
        if outputFormat = "name" then
          match h2.storePrinter namePrinter
              (fun p => { p with ShortOutput := true }) with
          | none => none
          | some h3 => some (h3, some namePrinter, none)
        else if outputFormat = "" then
          some (h2, some namePrinter, none)
        else
          some (h2, none, some (NoCompatiblePrinterError.mk f))

/-- The method `(f *NamePrintFlags) AddFlags(c *cobra.Command)`: its body is
empty, so it reads neither pointer and hands the heap back. -/
def AddFlags (h : Heap) (_f : Ptr) (_c : Option Ptr) : Option Heap :=
  some h

/-- Running `f.AddFlags(c)` `n` times in a row. -/
def AddFlagsTimes (h : Heap) (f : Ptr) (c : Option Ptr) : Nat → Option Heap
  | 0 => some h
  | n + 1 =>
    match AddFlags h f c with
    | none => none
    | some h1 => AddFlagsTimes h1 f c n

/-- The constructor `NewNamePrintFlags(operation, dryRun)`. -/
def NewNamePrintFlags (h : Heap) (operation : String) (dryRun : Bool) :
    Heap × Ptr :=
  h.newFlags { Operation := operation, DryRun := dryRun }

end printers

namespace printers

/-- The heap and the two values `ToPrinter` hands back on a live receiver: one
fresh printer is appended, and the switch picks the returned pair. -/
theorem ToPrinter_eq (caseTable : Char → Char) (h : Heap) (f : Ptr)
    (fv : NamePrintFlags) (s : String) (hf : h.flags[f]? = some fv) :
    ToPrinter caseTable h f s = some
      ({ flags := h.flags,
         printers := h.printers ++
           [{ Operation :=
                if fv.DryRun then fv.Operation ++ " (dry run)" else fv.Operation,
              Typer := ObjectTyper.Scheme,
              Decoders := [Decoder.UniversalDecoder, Decoder.UnstructuredJSONScheme],
              ShortOutput := decide (strings.ToLower caseTable s = "name") }] },
       if strings.ToLower caseTable s = "name" ∨ strings.ToLower caseTable s = ""
       then (some h.printers.length, none)
       else (none, some (NoCompatiblePrinterError.mk f))) := by
  unfold ToPrinter
  simp only [hf, Heap.newPrinter, Heap.storePrinter]
  cases hd : fv.DryRun <;> by_cases hn : strings.ToLower caseTable s = "name" <;>
    by_cases he : strings.ToLower caseTable s = "" <;> simp [hn, he]

/-- On an accepted format the fresh printer is returned and the error is nil. -/
theorem ToPrinter_accepted (caseTable : Char → Char) (h : Heap) (f : Ptr)
    (fv : NamePrintFlags) (s : String) (hf : h.flags[f]? = some fv)
    (hacc : strings.ToLower caseTable s = "name" ∨ strings.ToLower caseTable s = "") :
    ToPrinter caseTable h f s = some
      ({ flags := h.flags,
         printers := h.printers ++
           [{ Operation :=
                if fv.DryRun then fv.Operation ++ " (dry run)" else fv.Operation,
              Typer := ObjectTyper.Scheme,
              Decoders := [Decoder.UniversalDecoder, Decoder.UnstructuredJSONScheme],
              ShortOutput := decide (strings.ToLower caseTable s = "name") }] },
       some h.printers.length, none) := by
  rw [ToPrinter_eq caseTable h f fv s hf, if_pos hacc]

/-- On any other format the printer is nil and the error holds the receiver. -/
theorem ToPrinter_rejected (caseTable : Char → Char) (h : Heap) (f : Ptr)
    (fv : NamePrintFlags) (s : String) (hf : h.flags[f]? = some fv)
    (hrej : ¬ (strings.ToLower caseTable s = "name" ∨ strings.ToLower caseTable s = "")) :
    ToPrinter caseTable h f s = some
      ({ flags := h.flags,
         printers := h.printers ++
           [{ Operation :=
                if fv.DryRun then fv.Operation ++ " (dry run)" else fv.Operation,
              Typer := ObjectTyper.Scheme,
              Decoders := [Decoder.UniversalDecoder, Decoder.UnstructuredJSONScheme],
              ShortOutput := false }] },
       none, some (NoCompatiblePrinterError.mk f)) := by
  rw [ToPrinter_eq caseTable h f fv s hf, if_neg hrej]
  have hn : ¬ strings.ToLower caseTable s = "name" := fun hn => hrej (Or.inl hn)
  simp [hn]

/-- The lower-cased forms of the four accepted spellings the claims name. -/
theorem ToLower_accepted_spellings (caseTable : Char → Char) :
    strings.ToLower caseTable "NAME" = "name" ∧
    strings.ToLower caseTable "Name" = "name" ∧
    strings.ToLower caseTable "name" = "name" ∧
    strings.ToLower caseTable "" = "" :=
  ⟨rfl, rfl, rfl, rfl⟩

/-- A string built by appending `t` ends with `t`. -/
theorem HasSuffix_append (s t : String) : strings.HasSuffix (s ++ t) t := by
  unfold strings.HasSuffix
  rw [String.data_append]
  exact List.suffix_append _ _

/-- C1: on a live receiver `ToPrinter` returns a non-nil error exactly when the
lower-cased format is neither `""` nor `"name"`; with an error the printer is
nil, without one the printer is a pointer to an allocated `NamePrinter`. -/
theorem ToPrinter_error_iff_unsupported (caseTable : Char → Char) (h : Heap)
    (f : Ptr) (fv : NamePrintFlags) (s : String) (hf : h.flags[f]? = some fv) :
    ∃ h1 printer err, ToPrinter caseTable h f s = some (h1, printer, err) ∧
      (err ≠ none ↔
        (strings.ToLower caseTable s ≠ "" ∧ strings.ToLower caseTable s ≠ "name")) ∧
      (err ≠ none → printer = none) ∧
      (err = none → ∃ ptr p, printer = some ptr ∧ h1.printers[ptr]? = some p) := by
  rw [ToPrinter_eq caseTable h f fv s hf]
  by_cases hacc : strings.ToLower caseTable s = "name" ∨ strings.ToLower caseTable s = ""
  · refine ⟨_, some h.printers.length, none, by rw [if_pos hacc], ?_, ?_, ?_⟩
    · constructor
      · intro hne; exact absurd rfl hne
      · rintro ⟨h1, h2⟩; rcases hacc with hacc | hacc
        · exact absurd hacc h2
        · exact absurd hacc h1
    · intro hne; exact absurd rfl hne
    · intro _; exact ⟨h.printers.length, _, rfl, List.getElem?_concat_length _ _⟩
  · refine ⟨_, none, some (NoCompatiblePrinterError.mk f), by rw [if_neg hacc], ?_, ?_, ?_⟩
    · constructor
      · intro _; exact ⟨fun he => hacc (Or.inr he), fun hn => hacc (Or.inl hn)⟩
      · intro _; simp
    · intro _; rfl
    · intro hne; simp at hne

/-- C1 at the selector `{DryRun: true, Operation: "created"}` and the format
`"json"`. -/
theorem ToPrinter_error_iff_unsupported_witness :
    (Heap.mk [NamePrintFlags.mk true "created"] []).flags[0]?
        = some (NamePrintFlags.mk true "created") ∧
    ∃ h1 printer err,
      ToPrinter id (Heap.mk [NamePrintFlags.mk true "created"] []) 0 "json"
        = some (h1, printer, err) ∧
      (err ≠ none ↔ (strings.ToLower id "json" ≠ "" ∧ strings.ToLower id "json" ≠ "name")) ∧
      (err ≠ none → printer = none) ∧
      (err = none → ∃ ptr p, printer = some ptr ∧ h1.printers[ptr]? = some p) :=
  ⟨rfl, ToPrinter_error_iff_unsupported id
    (Heap.mk [NamePrintFlags.mk true "created"] []) 0
    (NamePrintFlags.mk true "created") "json" rfl⟩

/-- C2: when `ToPrinter` succeeds on a live receiver, the returned printer has
`ShortOutput = true` exactly when the lower-cased format is `"name"`; the
calls with `"NAME"`, `"Name"` and `"name"` give the same outcome, a printer
with `ShortOutput = true`, and the call with `""` gives a printer with
`ShortOutput = false`. -/
theorem ToPrinter_ShortOutput_iff_name (caseTable : Char → Char) (h : Heap)
    (f : Ptr) (fv : NamePrintFlags) (hf : h.flags[f]? = some fv) :
    (∀ s h1 ptr p, ToPrinter caseTable h f s = some (h1, some ptr, none) →
        h1.printers[ptr]? = some p →
        (p.ShortOutput = true ↔ strings.ToLower caseTable s = "name")) ∧
    ToPrinter caseTable h f "NAME" = ToPrinter caseTable h f "name" ∧
    ToPrinter caseTable h f "Name" = ToPrinter caseTable h f "name" ∧
    (∃ h1 ptr p, ToPrinter caseTable h f "name" = some (h1, some ptr, none) ∧
        h1.printers[ptr]? = some p ∧ p.ShortOutput = true) ∧
    (∃ h1 ptr p, ToPrinter caseTable h f "" = some (h1, some ptr, none) ∧
        h1.printers[ptr]? = some p ∧ p.ShortOutput = false) := by
  obtain ⟨hN, hn, hnn, he⟩ := ToLower_accepted_spellings caseTable
  refine ⟨?_, ?_, ?_, ?_, ?_⟩
  · intro s h1 ptr p hrun hp
    rw [ToPrinter_eq caseTable h f fv s hf] at hrun
    by_cases hacc : strings.ToLower caseTable s = "name" ∨ strings.ToLower caseTable s = ""
    · rw [if_pos hacc] at hrun
      simp only [Option.some.injEq, Prod.mk.injEq] at hrun
      obtain ⟨hh, hptr, _⟩ := hrun
      subst hh; subst hptr
      simp at hp
      subst hp
      simp
    · rw [if_neg hacc] at hrun
      simp at hrun
  · rw [ToPrinter_eq caseTable h f fv _ hf, ToPrinter_eq caseTable h f fv _ hf, hN, hnn]
  · rw [ToPrinter_eq caseTable h f fv _ hf, ToPrinter_eq caseTable h f fv _ hf, hn, hnn]
  · exact ⟨_, _, _, ToPrinter_accepted caseTable h f fv "name" hf (Or.inl hnn),
      List.getElem?_concat_length _ _, by simp [hnn]⟩
  · exact ⟨_, _, _, ToPrinter_accepted caseTable h f fv "" hf (Or.inr he),
      List.getElem?_concat_length _ _, by simp [he]⟩

/-- C2 at the selector `{DryRun: false, Operation: "deleted"}`. -/
theorem ToPrinter_ShortOutput_iff_name_witness :
    (Heap.mk [NamePrintFlags.mk false "deleted"] []).flags[0]?
        = some (NamePrintFlags.mk false "deleted") ∧
    ((∀ s h1 ptr p,
        ToPrinter id (Heap.mk [NamePrintFlags.mk false "deleted"] []) 0 s
          = some (h1, some ptr, none) →
        h1.printers[ptr]? = some p →
        (p.ShortOutput = true ↔ strings.ToLower id s = "name")) ∧
    ToPrinter id (Heap.mk [NamePrintFlags.mk false "deleted"] []) 0 "NAME"
      = ToPrinter id (Heap.mk [NamePrintFlags.mk false "deleted"] []) 0 "name" ∧
    ToPrinter id (Heap.mk [NamePrintFlags.mk false "deleted"] []) 0 "Name"
      = ToPrinter id (Heap.mk [NamePrintFlags.mk false "deleted"] []) 0 "name" ∧
    (∃ h1 ptr p,
        ToPrinter id (Heap.mk [NamePrintFlags.mk false "deleted"] []) 0 "name"
          = some (h1, some ptr, none) ∧
        h1.printers[ptr]? = some p ∧ p.ShortOutput = true) ∧
    (∃ h1 ptr p,
        ToPrinter id (Heap.mk [NamePrintFlags.mk false "deleted"] []) 0 ""
          = some (h1, some ptr, none) ∧
        h1.printers[ptr]? = some p ∧ p.ShortOutput = false)) :=
  ⟨rfl, ToPrinter_ShortOutput_iff_name id
    (Heap.mk [NamePrintFlags.mk false "deleted"] []) 0
    (NamePrintFlags.mk false "deleted") rfl⟩

/-- C3: with `DryRun = true` and an accepted format (either one), the printer
returned has `Operation` equal to the receiver's `Operation` followed by
`" (dry run)"`, so its message ends with `" (dry run)"`. -/
theorem ToPrinter_dry_run_suffix (caseTable : Char → Char) (h : Heap) (f : Ptr)
    (fv : NamePrintFlags) (s : String) (hf : h.flags[f]? = some fv)
    (hdry : fv.DryRun = true)
    (hacc : strings.ToLower caseTable s = "" ∨ strings.ToLower caseTable s = "name") :
    ∃ h1 ptr p, ToPrinter caseTable h f s = some (h1, some ptr, none) ∧
      h1.printers[ptr]? = some p ∧
      p.Operation = fv.Operation ++ " (dry run)" ∧
      strings.HasSuffix p.Operation " (dry run)" := by
  refine ⟨_, _, _, ToPrinter_accepted caseTable h f fv s hf hacc.symm,
    List.getElem?_concat_length _ _, ?_, ?_⟩
  · simp [hdry]
  · simp only [hdry, if_true]
    exact HasSuffix_append _ _

/-- C3 at the selector `{DryRun: true, Operation: "deleted"}` and the format
`"Name"`, the short-output mode. -/
theorem ToPrinter_dry_run_suffix_witness :
    (Heap.mk [NamePrintFlags.mk true "deleted"] []).flags[0]?
        = some (NamePrintFlags.mk true "deleted") ∧
    (NamePrintFlags.mk true "deleted").DryRun = true ∧
    (strings.ToLower id "Name" = "" ∨ strings.ToLower id "Name" = "name") ∧
    ∃ h1 ptr p,
      ToPrinter id (Heap.mk [NamePrintFlags.mk true "deleted"] []) 0 "Name"
        = some (h1, some ptr, none) ∧
      h1.printers[ptr]? = some p ∧
      p.Operation = (NamePrintFlags.mk true "deleted").Operation ++ " (dry run)" ∧
      strings.HasSuffix p.Operation " (dry run)" :=
  ⟨rfl, rfl, Or.inr rfl, ToPrinter_dry_run_suffix id
    (Heap.mk [NamePrintFlags.mk true "deleted"] []) 0
    (NamePrintFlags.mk true "deleted") "Name" rfl rfl (Or.inr rfl)⟩

/-- C4, as stated, fails: the selector built by
`NewNamePrintFlags("created (dry run)", false)` has `DryRun = false`, the
format `""` is accepted, and the printer returned has `Operation`
`"created (dry run)"`, which ends with `" (dry run)"`. -/
theorem ToPrinter_no_dry_run_counterexample :
    NewNamePrintFlags (Heap.mk [] []) "created (dry run)" false
      = (Heap.mk [NamePrintFlags.mk false "created (dry run)"] [], 0) ∧
    ToPrinter id (Heap.mk [NamePrintFlags.mk false "created (dry run)"] []) 0 ""
      = some
          (Heap.mk [NamePrintFlags.mk false "created (dry run)"]
             [NamePrinter.mk "created (dry run)" ObjectTyper.Scheme
                [Decoder.UniversalDecoder, Decoder.UnstructuredJSONScheme] false],
           some 0, none) ∧
    strings.HasSuffix "created (dry run)" " (dry run)" :=
  ⟨rfl, rfl, ⟨"created".data, rfl⟩⟩

/-- C4, amended: with `DryRun = false` and an accepted format, the printer
returned has `Operation` exactly the receiver's `Operation`, nothing
appended, so it ends with `" (dry run)"` exactly when the receiver's
`Operation` does. -/
theorem ToPrinter_no_dry_run_Operation (caseTable : Char → Char) (h : Heap)
    (f : Ptr) (fv : NamePrintFlags) (s : String) (hf : h.flags[f]? = some fv)
    (hdry : fv.DryRun = false)
    (hacc : strings.ToLower caseTable s = "" ∨ strings.ToLower caseTable s = "name") :
    ∃ h1 ptr p, ToPrinter caseTable h f s = some (h1, some ptr, none) ∧
      h1.printers[ptr]? = some p ∧
      p.Operation = fv.Operation ∧
      (strings.HasSuffix p.Operation " (dry run)" ↔
        strings.HasSuffix fv.Operation " (dry run)") := by
  refine ⟨_, _, _, ToPrinter_accepted caseTable h f fv s hf hacc.symm,
    List.getElem?_concat_length _ _, ?_, ?_⟩
  · simp [hdry]
  · simp [hdry]

/-- C4, amended, at the selector `{DryRun: false, Operation: "created"}` and
the format `""`. -/
theorem ToPrinter_no_dry_run_Operation_witness :
    (Heap.mk [NamePrintFlags.mk false "created"] []).flags[0]?
        = some (NamePrintFlags.mk false "created") ∧
    (NamePrintFlags.mk false "created").DryRun = false ∧
    (strings.ToLower id "" = "" ∨ strings.ToLower id "" = "name") ∧
    ∃ h1 ptr p,
      ToPrinter id (Heap.mk [NamePrintFlags.mk false "created"] []) 0 ""
        = some (h1, some ptr, none) ∧
      h1.printers[ptr]? = some p ∧
      p.Operation = (NamePrintFlags.mk false "created").Operation ∧
      (strings.HasSuffix p.Operation " (dry run)" ↔
        strings.HasSuffix (NamePrintFlags.mk false "created").Operation " (dry run)") :=
  ⟨rfl, rfl, Or.inl rfl, ToPrinter_no_dry_run_Operation id
    (Heap.mk [NamePrintFlags.mk false "created"] []) 0
    (NamePrintFlags.mk false "created") "" rfl rfl (Or.inl rfl)⟩

/-- C5: on a live receiver and any format, accepted or not, `ToPrinter` returns
and leaves every `NamePrintFlags` object as it was; the receiver keeps its
`Operation` and its `DryRun`, also when `DryRun` is true and the suffix goes
into the printer. -/
theorem ToPrinter_receiver_unchanged (caseTable : Char → Char) (h : Heap)
    (f : Ptr) (fv : NamePrintFlags) (s : String) (hf : h.flags[f]? = some fv) :
    ∃ h1 r, ToPrinter caseTable h f s = some (h1, r) ∧
      h1.flags = h.flags ∧ h1.flags[f]? = some fv := by
  rw [ToPrinter_eq caseTable h f fv s hf]
  exact ⟨_, _, rfl, rfl, hf⟩

/-- C5 at the selector `{DryRun: true, Operation: "created"}` and the format
`"name"`. -/
theorem ToPrinter_receiver_unchanged_witness :
    (Heap.mk [NamePrintFlags.mk true "created"] []).flags[0]?
        = some (NamePrintFlags.mk true "created") ∧
    ∃ h1 r,
      ToPrinter id (Heap.mk [NamePrintFlags.mk true "created"] []) 0 "name"
        = some (h1, r) ∧
      h1.flags = (Heap.mk [NamePrintFlags.mk true "created"] []).flags ∧
      h1.flags[0]? = some (NamePrintFlags.mk true "created") :=
  ⟨rfl, ToPrinter_receiver_unchanged id
    (Heap.mk [NamePrintFlags.mk true "created"] []) 0
    (NamePrintFlags.mk true "created") "name" rfl⟩

/-- C6: two calls of `ToPrinter` in a row on a live receiver with the same
format both return, and they either both fail with the same error, or both
succeed with two distinct printer objects that are equal field by field
(`Operation`, `ShortOutput`, and the rest); the first printer is not touched
by the second call, and the second printer's `Operation` carries the suffix
once when `DryRun` is true. -/
theorem ToPrinter_twice_same_outcome (caseTable : Char → Char) (h : Heap)
    (f : Ptr) (fv : NamePrintFlags) (s : String) (hf : h.flags[f]? = some fv) :
    ∃ h1 r1 h2 r2, ToPrinter caseTable h f s = some (h1, r1) ∧
      ToPrinter caseTable h1 f s = some (h2, r2) ∧
      ((∃ e, r1 = (none, some e) ∧ r2 = (none, some e)) ∨
       (∃ p1 p2 q1 q2, r1 = (some p1, none) ∧ r2 = (some p2, none) ∧ p1 ≠ p2 ∧
          h1.printers[p1]? = some q1 ∧ h2.printers[p1]? = some q1 ∧
          h2.printers[p2]? = some q2 ∧
          q1.Operation = q2.Operation ∧ q1.ShortOutput = q2.ShortOutput ∧ q1 = q2 ∧
          q2.Operation =
            (if fv.DryRun then fv.Operation ++ " (dry run)" else fv.Operation))) := by
  by_cases hacc : strings.ToLower caseTable s = "name" ∨ strings.ToLower caseTable s = ""
  · refine ⟨_, _, _, _, ToPrinter_accepted caseTable h f fv s hf hacc,
      ToPrinter_accepted caseTable _ f fv s hf hacc, Or.inr ?_⟩
    refine ⟨_, _, _, _, rfl, rfl, ?_, List.getElem?_concat_length _ _, ?_,
      List.getElem?_concat_length _ _, rfl, rfl, rfl, rfl⟩
    · simp
    · rw [List.getElem?_append_left (by simp)]
      exact List.getElem?_concat_length _ _
  · exact ⟨_, _, _, _, ToPrinter_rejected caseTable h f fv s hf hacc,
      ToPrinter_rejected caseTable _ f fv s hf hacc, Or.inl ⟨_, rfl, rfl⟩⟩

/-- C6 at the selector `{DryRun: true, Operation: "created"}` and the format
`""`. -/
theorem ToPrinter_twice_same_outcome_witness :
    (Heap.mk [NamePrintFlags.mk true "created"] []).flags[0]?
        = some (NamePrintFlags.mk true "created") ∧
    ∃ h1 r1 h2 r2,
      ToPrinter id (Heap.mk [NamePrintFlags.mk true "created"] []) 0 ""
        = some (h1, r1) ∧
      ToPrinter id h1 0 "" = some (h2, r2) ∧
      ((∃ e, r1 = (none, some e) ∧ r2 = (none, some e)) ∨
       (∃ p1 p2 q1 q2, r1 = (some p1, none) ∧ r2 = (some p2, none) ∧ p1 ≠ p2 ∧
          h1.printers[p1]? = some q1 ∧ h2.printers[p1]? = some q1 ∧
          h2.printers[p2]? = some q2 ∧
          q1.Operation = q2.Operation ∧ q1.ShortOutput = q2.ShortOutput ∧ q1 = q2 ∧
          q2.Operation =
            (if (NamePrintFlags.mk true "created").DryRun
             then (NamePrintFlags.mk true "created").Operation ++ " (dry run)"
             else (NamePrintFlags.mk true "created").Operation))) :=
  ⟨rfl, ToPrinter_twice_same_outcome id
    (Heap.mk [NamePrintFlags.mk true "created"] []) 0
    (NamePrintFlags.mk true "created") "" rfl⟩

/-- C7, as stated, fails: on the selector `{DryRun: false, Operation:
"created"}` the calls with `"json"` and with `"yaml"` return the same error,
`NoCompatiblePrinterError` holding the receiver's address, and nothing in it
tells the two formats apart. -/
theorem ToPrinter_error_format_counterexample :
    ToPrinter id (Heap.mk [NamePrintFlags.mk false "created"] []) 0 "json"
      = some
          (Heap.mk [NamePrintFlags.mk false "created"]
             [NamePrinter.mk "created" ObjectTyper.Scheme
                [Decoder.UniversalDecoder, Decoder.UnstructuredJSONScheme] false],
           none, some (NoCompatiblePrinterError.mk 0)) ∧
    ToPrinter id (Heap.mk [NamePrintFlags.mk false "created"] []) 0 "yaml"
      = some
          (Heap.mk [NamePrintFlags.mk false "created"]
             [NamePrinter.mk "created" ObjectTyper.Scheme
                [Decoder.UniversalDecoder, Decoder.UnstructuredJSONScheme] false],
           none, some (NoCompatiblePrinterError.mk 0)) :=
  ⟨rfl, rfl⟩

/-- C7, amended: on a live receiver the error of a rejected format is
`NoCompatiblePrinterError{f}`, which holds the receiver and not the format,
so two rejected formats give the same error and the same outcome. -/
theorem ToPrinter_error_same_for_rejected (caseTable : Char → Char) (h : Heap)
    (f : Ptr) (fv : NamePrintFlags) (s t : String) (hf : h.flags[f]? = some fv)
    (hs : strings.ToLower caseTable s ≠ "" ∧ strings.ToLower caseTable s ≠ "name")
    (ht : strings.ToLower caseTable t ≠ "" ∧ strings.ToLower caseTable t ≠ "name") :
    ∃ h1, ToPrinter caseTable h f s
        = some (h1, none, some (NoCompatiblePrinterError.mk f)) ∧
      ToPrinter caseTable h f t = ToPrinter caseTable h f s := by
  have hs1 : ¬ (strings.ToLower caseTable s = "name" ∨ strings.ToLower caseTable s = "") :=
    fun hc => hc.elim hs.2 hs.1
  have ht1 : ¬ (strings.ToLower caseTable t = "name" ∨ strings.ToLower caseTable t = "") :=
    fun hc => hc.elim ht.2 ht.1
  refine ⟨_, ToPrinter_rejected caseTable h f fv s hf hs1, ?_⟩
  rw [ToPrinter_rejected caseTable h f fv s hf hs1,
    ToPrinter_rejected caseTable h f fv t hf ht1]

/-- C7, amended, at the selector `{DryRun: true, Operation: "created"}` and
the formats `"json"` and `"yaml"`. -/
theorem ToPrinter_error_same_for_rejected_witness :
    (Heap.mk [NamePrintFlags.mk true "created"] []).flags[0]?
        = some (NamePrintFlags.mk true "created") ∧
    (strings.ToLower id "json" ≠ "" ∧ strings.ToLower id "json" ≠ "name") ∧
    (strings.ToLower id "yaml" ≠ "" ∧ strings.ToLower id "yaml" ≠ "name") ∧
    ∃ h1, ToPrinter id (Heap.mk [NamePrintFlags.mk true "created"] []) 0 "json"
        = some (h1, none, some (NoCompatiblePrinterError.mk 0)) ∧
      ToPrinter id (Heap.mk [NamePrintFlags.mk true "created"] []) 0 "yaml"
        = ToPrinter id (Heap.mk [NamePrintFlags.mk true "created"] []) 0 "json" :=
  ⟨rfl, ⟨by decide, by decide⟩, ⟨by decide, by decide⟩,
    ToPrinter_error_same_for_rejected id
      (Heap.mk [NamePrintFlags.mk true "created"] []) 0
      (NamePrintFlags.mk true "created") "json" "yaml" rfl
      ⟨by decide, by decide⟩ ⟨by decide, by decide⟩⟩

/-- C8: on a live receiver the error of a rejected format is a
`NoCompatiblePrinterError` whose payload is the receiver `f` itself; read
after the call, it shows the receiver's `Operation` and `DryRun` as they were
before the call, the `Operation` without any suffix. -/
theorem ToPrinter_error_payload_is_receiver (caseTable : Char → Char) (h : Heap)
    (f : Ptr) (fv : NamePrintFlags) (s : String) (hf : h.flags[f]? = some fv)
    (hs : strings.ToLower caseTable s ≠ "" ∧ strings.ToLower caseTable s ≠ "name") :
    ∃ h1 e, ToPrinter caseTable h f s = some (h1, none, some e) ∧
      e = NoCompatiblePrinterError.mk f ∧ e.Options = f ∧
      h1.flags[e.Options]? = some fv := by
  have hs1 : ¬ (strings.ToLower caseTable s = "name" ∨ strings.ToLower caseTable s = "") :=
    fun hc => hc.elim hs.2 hs.1
  exact ⟨_, _, ToPrinter_rejected caseTable h f fv s hf hs1, rfl, rfl, hf⟩

/-- C8 at the selector `{DryRun: true, Operation: "created"}`, second object
on the heap, and the format `"YAML"`. -/
theorem ToPrinter_error_payload_is_receiver_witness :
    (Heap.mk [NamePrintFlags.mk false "deleted", NamePrintFlags.mk true "created"]
        []).flags[1]? = some (NamePrintFlags.mk true "created") ∧
    (strings.ToLower id "YAML" ≠ "" ∧ strings.ToLower id "YAML" ≠ "name") ∧
    ∃ h1 e,
      ToPrinter id
          (Heap.mk [NamePrintFlags.mk false "deleted", NamePrintFlags.mk true "created"]
            []) 1 "YAML"
        = some (h1, none, some e) ∧
      e = NoCompatiblePrinterError.mk 1 ∧ e.Options = 1 ∧
      h1.flags[e.Options]? = some (NamePrintFlags.mk true "created") :=
  ⟨rfl, ⟨by decide, by decide⟩,
    ToPrinter_error_payload_is_receiver id
      (Heap.mk [NamePrintFlags.mk false "deleted", NamePrintFlags.mk true "created"] [])
      1 (NamePrintFlags.mk true "created") "YAML" rfl ⟨by decide, by decide⟩⟩

/-- Any number of `AddFlags` calls hands back the heap it was given. -/
theorem AddFlagsTimes_eq (h : Heap) (f : Ptr) (c : Option Ptr) (n : Nat) :
    AddFlagsTimes h f c n = some h := by
  induction n with
  | zero => rfl
  | succ n ih => simpa [AddFlagsTimes, AddFlags] using ih

/-- C9: `f.AddFlags(c)` run `n` times, for any receiver, any command and any
`n`, returns without a panic, leaves the receiver's fields (and the whole
heap) as they were, and `ToPrinter` gives afterwards what it gave before, for
every format. -/
theorem AddFlags_is_noop (h : Heap) (f : Ptr) (c : Option Ptr) (n : Nat) :
    ∃ h1, AddFlagsTimes h f c n = some h1 ∧
      h1.flags[f]? = h.flags[f]? ∧ h1 = h ∧
      ∀ (caseTable : Char → Char) (s : String),
        ToPrinter caseTable h1 f s = ToPrinter caseTable h f s :=
  ⟨h, AddFlagsTimes_eq h f c n, rfl, rfl, fun _ _ => rfl⟩

/-- C10: `NewNamePrintFlags(operation, dryRun)` returns, for any string and
any boolean, a pointer to a new selector whose `Operation` is `operation`
and whose `DryRun` is `dryRun`, the older objects untouched; and
`NewNamePrintFlags(op, false).ToPrinter("")` returns a printer with
`Operation = op` and `ShortOutput = false`. -/
theorem NewNamePrintFlags_fields (caseTable : Char → Char) (h : Heap)
    (operation : String) (dryRun : Bool) :
    (NewNamePrintFlags h operation dryRun).1.flags[(NewNamePrintFlags h operation dryRun).2]?
        = some (NamePrintFlags.mk dryRun operation) ∧
    (NewNamePrintFlags h operation dryRun).1.flags
        = h.flags ++ [NamePrintFlags.mk dryRun operation] ∧
    (NewNamePrintFlags h operation dryRun).1.printers = h.printers ∧
    ∃ h1 ptr p,
      ToPrinter caseTable (NewNamePrintFlags h operation false).1
          (NewNamePrintFlags h operation false).2 ""
        = some (h1, some ptr, none) ∧
      h1.printers[ptr]? = some p ∧ p.Operation = operation ∧ p.ShortOutput = false := by
  have hnew : ∀ d : Bool,
      (NewNamePrintFlags h operation d).1.flags[(NewNamePrintFlags h operation d).2]?
        = some (NamePrintFlags.mk d operation) :=
    fun d => List.getElem?_concat_length _ _
  have he : strings.ToLower caseTable "" = "" := rfl
  refine ⟨hnew dryRun, rfl, rfl, _, _, _,
    ToPrinter_accepted caseTable _ _ _ "" (hnew false) (Or.inr he),
    List.getElem?_concat_length _ _, ?_, ?_⟩
  · simp
  · simp [he]

end printers
